import Mathlib

/-!
Verification of the matrix-bots conversation-threading core.

The embedding models the two event handlers of the bot
(the message handler and the invite handler) together with the
in-memory thread store they mutate. Pure Go functions become Lean
functions; the mutable conversation slice becomes an explicit
state value threaded through the handler; the two external calls
(the completion request and the outbound send) become oracle
outcomes passed to the handler, so every failure branch of the
source is a reachable branch of the embedding.
-/

namespace MatrixBots

/-- Role of a chat message, mirroring the openai role constants
used by the source (system, user, assistant). -/
inductive Role where
  | system
  | user
  | assistant
deriving DecidableEq, Repr

/-- One turn of a conversation, mirroring the fields the source
stores per message: the protocol event id, the id of the turn it
replies to (empty when absent), the author role, and the text. -/
structure Message where
  eventID : String
  parentID : String
  role : Role
  content : String
deriving DecidableEq, Repr

/-- A conversation is the ordered sequence of its turns,
insertion order, append-only. -/
abbrev Conversation := List Message

/-- An inbound message event as the handler consumes it: sender
identity, event id, the reply-to parent id extracted from the
relation metadata (empty when there is none), body text, room. -/
structure InboundEvent where
  sender : String
  id : String
  parentID : String
  body : String
  roomID : String
deriving DecidableEq, Repr

/-- An outbound message the handler successfully sent: target
room, the reply text, the inbound event id it is marked as a
reply to, and the event id the protocol assigned to it. -/
structure SentMessage where
  roomID : String
  body : String
  inReplyTo : String
  eventID : String
deriving DecidableEq, Repr

/-- The observable outcome of handling one inbound message event:
the new conversation set, whether a completion request was made,
whether an outbound send was attempted, and the messages that
were actually sent. -/
structure HandlerResult where
  convs : List Conversation
  completionRequested : Bool
  sendAttempted : Bool
  sent : List SentMessage
deriving DecidableEq, Repr

/-- Whether a conversation holds a turn with the given event id. -/
def hasEventID (c : Conversation) (eid : String) : Bool :=
  c.any (fun m => m.eventID == eid)

/-- Modelled from the spec: the Thread Store lookup
findByTurnID (FindByEventID in the source, whose file is not in
the excerpt). Linear scan over the held conversations, returning
the index of the first conversation containing a turn with the
given id, or none. The index stands for the pointer the Go code
returns, so that a later mutation hits the stored conversation. -/
def findByEventID : List Conversation → String → Option Nat
  | [], _ => none
  | c :: rest, eid =>
    if hasEventID c eid then some 0
    else (findByEventID rest eid).map (fun n => n + 1)

/-- Modelled from the spec: Conversation.Add (source file not in
the excerpt) appends a turn at the end of the sequence, no
de-duplication. -/
def addMessage (c : Conversation) (m : Message) : Conversation :=
  c ++ [m]

/-- Modelled from the spec: NewConversation (source file not in
the excerpt). The caller passes only the event body, so the seed
turn carries the body with user role while its event id and
parent id are left blank; the spec's design notes record that the
source does not tie the seed turn's id to the inbound event id. -/
def newConversation (body : String) : Conversation :=
  [{ eventID := "", parentID := "", role := Role.user, content := body }]

/-- Replace the conversation at index i by f applied to it;
identity elsewhere. This models in-place mutation through the
pointer the Go lookup returned. -/
def updateAt : List Conversation → Nat → (Conversation → Conversation) → List Conversation
  | [], _, _ => []
  | c :: rest, 0, f => f c :: rest
  | c :: rest, n + 1, f => c :: updateAt rest n f

/-- The message handler of RespondHandler in src/bot/matrix.go:
filter out the bot's own events, resolve the parent id to an
existing conversation or create a new one, request a completion,
send the reply, and record the assistant turn only after a
successful send. comp is the outcome of the completion call and
send the outcome of the outbound send (the ok value being the
event id the protocol assigned to the sent message). -/
def respondHandler (botID : String) (cs : List Conversation) (evt : InboundEvent)
    (comp : Except Unit String) (send : Except Unit String) : HandlerResult :=
  if evt.sender ≠ botID then
    let eventID := evt.id
    let parentID := evt.parentID
    let found : Option Nat :=
      if parentID ≠ "" then findByEventID cs parentID else none
    let resolved : List Conversation × Nat :=
      match found with
      | some i =>
        (updateAt cs i (fun c => addMessage c
          { eventID := eventID, parentID := parentID
            role := Role.user, content := evt.body }), i)
      | none => (cs ++ [newConversation evt.body], cs.length)
    match comp with
    | Except.error _ =>
      { convs := resolved.1, completionRequested := true
        sendAttempted := false, sent := [] }
    | Except.ok reply =>
      match send with
      | Except.error _ =>
        { convs := resolved.1, completionRequested := true
          sendAttempted := true, sent := [] }
      | Except.ok respID =>
        { convs := updateAt resolved.1 resolved.2 (fun c => addMessage c
            { eventID := respID, parentID := eventID
              role := Role.assistant, content := reply })
          completionRequested := true, sendAttempted := true
          sent := [{ roomID := evt.roomID, body := reply
                     inReplyTo := eventID, eventID := respID }] }
  else
    { convs := cs, completionRequested := false
      sendAttempted := false, sent := [] }

/-- A room-invite state event as the invite handler consumes it:
the state key it addresses, the membership value, the room and
the inviter. -/
structure InviteEvent where
  stateKey : String
  membership : String
  roomID : String
  sender : String
deriving DecidableEq, Repr

/-- Severity of a log line emitted by the invite handler. -/
inductive LogLevel where
  | info
  | error
deriving DecidableEq, Repr

/-- A log line carrying the room and inviter context the source
attaches to both the success and the failure message. -/
structure LogEntry where
  level : LogLevel
  roomID : String
  inviter : String
  msg : String
deriving DecidableEq, Repr

/-- Outcome of handling one room-invite event: the rooms the bot
is a member of afterwards, the log lines emitted, and how many
join calls were issued. -/
structure InviteResult where
  joined : List String
  logs : List LogEntry
  joinAttempts : Nat
deriving DecidableEq, Repr

/-- The invite handler of InviteHandler in src/bot/matrix.go:
when the state event addresses the bot's own identity with an
invite membership, issue exactly one join call; on success record
the room as joined and log with room and inviter context, on
failure leave the membership unchanged and log the failure with
the same context. joinOutcome is the outcome of the external join
call. -/
def inviteHandler (botID : String) (joined : List String) (evt : InviteEvent)
    (joinOutcome : Except Unit Unit) : InviteResult :=
  if evt.stateKey = botID ∧ evt.membership = "invite" then
    match joinOutcome with
    | Except.ok _ =>
      { joined := joined ++ [evt.roomID]
        logs := [{ level := LogLevel.info, roomID := evt.roomID
                   inviter := evt.sender, msg := "Joined room after invite" }]
        joinAttempts := 1 }
    | Except.error _ =>
      { joined := joined
        logs := [{ level := LogLevel.error, roomID := evt.roomID
                   inviter := evt.sender, msg := "Failed to join room after invite" }]
        joinAttempts := 1 }
  else
    { joined := joined, logs := [], joinAttempts := 0 }

/-- One candidate choice of a completion response; only the
message content is consumed by the handler. -/
structure Choice where
  content : String
deriving DecidableEq, Repr

/-- Go slice indexing with a signed index, total: none when the
index is negative or past the end (the branch where the Go
program panics). -/
def goIndex (choices : List Choice) (i : Int) : Option Choice :=
  if h : 0 ≤ i ∧ i.toNat < choices.length then
    some (choices.get ⟨i.toNat, h.2⟩)
  else
    none

/-- The reply-text selection of src/unnamed/part_000 line 159:
the content of the choice at position length - 1 of the response,
with no emptiness guard. -/
def selectReply (choices : List Choice) : Option String :=
  (goIndex choices ((choices.length : Int) - 1)).map (fun c => c.content)

/-! Helper lemmas about the thread store operations. -/

theorem updateAt_length (cs : List Conversation) (i : Nat) (f : Conversation → Conversation) :
  (updateAt cs i f).length = cs.length := by
  induction cs generalizing i with
  | nil => rfl
  | cons c rest ih =>
    cases i with
    | zero => rfl
    | succ n => simp [updateAt, ih]

theorem updateAt_get?_self (cs : List Conversation) (i : Nat) (f : Conversation → Conversation) :
  (updateAt cs i f).get? i = (cs.get? i).map f := by
  induction cs generalizing i with
  | nil => rfl
  | cons c rest ih =>
    cases i with
    | zero => rfl
    | succ n => simpa [updateAt] using ih n

theorem updateAt_get?_ne (cs : List Conversation) (i j : Nat) (f : Conversation → Conversation)
    (h : j ≠ i) : (updateAt cs i f).get? j = cs.get? j := by
  induction cs generalizing i j with
  | nil => rfl
  | cons c rest ih =>
    cases i with
    | zero =>
      cases j with
      | zero => exact absurd rfl h
      | succ m => rfl
    | succ n =>
      cases j with
      | zero => rfl
      | succ m =>
        simpa [updateAt] using ih n m (fun hc => h (by simp [hc]))

theorem updateAt_updateAt (cs : List Conversation) (i : Nat)
    (f g : Conversation → Conversation) :
  updateAt (updateAt cs i f) i g = updateAt cs i (fun c => g (f c)) := by
  induction cs generalizing i with
  | nil => rfl
  | cons c rest ih =>
    cases i with
    | zero => rfl
    | succ n => simp [updateAt, ih]

theorem hasEventID_true_of_mem {c : Conversation} {m : Message} {eid : String}
    (hm : m ∈ c) (he : m.eventID = eid) : hasEventID c eid = true := by
  simp only [hasEventID, List.any_eq_true]
  exact ⟨m, hm, by simp [he]⟩

theorem hasEventID_false_of (c : Conversation) (eid : String)
    (h : ∀ m ∈ c, m.eventID ≠ eid) : hasEventID c eid = false := by
  simp only [hasEventID, List.any_eq_false]
  intro m hm
  simpa using h m hm

theorem mem_of_hasEventID {c : Conversation} {eid : String}
    (h : hasEventID c eid = true) : ∃ m ∈ c, m.eventID = eid := by
  simp only [hasEventID, List.any_eq_true] at h
  obtain ⟨m, hm, he⟩ := h
  exact ⟨m, hm, by simpa using he⟩

theorem findByEventID_spec {cs : List Conversation} {eid : String} {i : Nat}
    (h : findByEventID cs eid = some i) :
    ∃ c, cs.get? i = some c ∧ hasEventID c eid = true := by
  induction cs generalizing i with
  | nil => simp [findByEventID] at h
  | cons c rest ih =>
    by_cases hc : hasEventID c eid
    · simp [findByEventID, hc] at h
      exact ⟨c, by simp [h.symm], hc⟩
    · simp [findByEventID, hc] at h
      obtain ⟨n, hn, hni⟩ := h
      obtain ⟨c', hc', hh⟩ := ih hn
      refine ⟨c', ?_, hh⟩
      rw [← hni]
      exact hc'

theorem findByEventID_lt_length {cs : List Conversation} {eid : String} {i : Nat}
    (h : findByEventID cs eid = some i) : i < cs.length := by
  obtain ⟨c, hc, _⟩ := findByEventID_spec h
  exact List.get?_eq_some.mp hc |>.choose

theorem findByEventID_eq_some_of {cs : List Conversation} {eid : String} {i : Nat} {c : Conversation}
    (hc : cs.get? i = some c) (hh : hasEventID c eid = true)
    (hbefore : ∀ j, j < i → ∀ c', cs.get? j = some c' → hasEventID c' eid = false) :
    findByEventID cs eid = some i := by
  induction cs generalizing i with
  | nil => simp at hc
  | cons d rest ih =>
    cases i with
    | zero =>
      simp at hc
      simp [findByEventID, hc ▸ hh]
    | succ n =>
      have hd : hasEventID d eid = false := hbefore 0 (Nat.succ_pos n) d rfl
      have hrest : findByEventID rest eid = some n := by
        refine ih (by simpa using hc) ?_
        intro j hj c' hc'
        exact hbefore (j + 1) (Nat.succ_lt_succ hj) c' (by simpa using hc')
      simp [findByEventID, hd, hrest]

theorem updateAt_append_singleton (l : List Conversation) (c : Conversation)
    (f : Conversation → Conversation) :
  updateAt (l ++ [c]) l.length f = l ++ [f c] := by
  induction l with
  | nil => rfl
  | cons d rest ih => simp [updateAt, ih]

theorem hasEventID_append (a b : Conversation) (eid : String) :
  hasEventID (a ++ b) eid = (hasEventID a eid || hasEventID b eid) := by
  simp [hasEventID]

/-- The reply selection returns the last choice's content whenever
the response holds at least one choice. -/
theorem selectReply_getLast (choices : List Choice) (h : choices ≠ []) :
  selectReply choices = some ((choices.getLast h).content) := by
  have hlen : 0 < choices.length := List.length_pos.mpr h
  have h0 : (0 : Int) ≤ (choices.length : Int) - 1 := by omega
  have h1 : ((choices.length : Int) - 1).toNat < choices.length := by omega
  have hidx : ((choices.length : Int) - 1).toNat = choices.length - 1 := by omega
  unfold selectReply goIndex
  rw [dif_pos ⟨h0, h1⟩]
  have hget : choices.get ⟨((choices.length : Int) - 1).toNat, h1⟩ = choices.getLast h := by
    rw [List.getLast_eq_getElem]
    simp only [List.get_eq_getElem]
    congr 1
  rw [hget]
  rfl

/-! Theorems for the frozen claims. -/

/-- C4: an inbound event whose sender equals the bot's own
configured identity produces no completion request, no send
attempt, no outbound message, and leaves the conversation set
unchanged; and the suppression is decided by the identity
comparison alone — any event from a different sender triggers a
completion request regardless of its content. -/
theorem respond_self_echo_suppression (botID : String) (cs : List Conversation)
    (evt : InboundEvent) (comp send : Except Unit String) :
  (evt.sender = botID →
    respondHandler botID cs evt comp send =
      { convs := cs, completionRequested := false
        sendAttempted := false, sent := [] })
  ∧ (evt.sender ≠ botID →
    (respondHandler botID cs evt comp send).completionRequested = true) := by
  constructor
  · intro h
    simp [respondHandler, h]
  · intro h
    cases comp <;> cases send <;> simp [respondHandler, h]

theorem respond_self_echo_suppression_witness :
  respondHandler "bot" [] { sender := "bot", id := "e1", parentID := ""
                            body := "hello", roomID := "room" }
      (Except.ok "x") (Except.ok "e2") =
    { convs := [], completionRequested := false, sendAttempted := false, sent := [] } :=
  (respond_self_echo_suppression "bot" []
    { sender := "bot", id := "e1", parentID := "", body := "hello", roomID := "room" }
    (Except.ok "x") (Except.ok "e2")).1 rfl

/-- C6: given a completion response with at least one candidate
choice, the reply text used is the content of the last choice,
and it differs from the first choice's content whenever the two
contents differ. -/
theorem selectReply_last_choice (choices : List Choice) (h : choices ≠ []) :
  selectReply choices = some ((choices.getLast h).content) ∧
  (∀ c0, choices.head? = some c0 → c0.content ≠ (choices.getLast h).content →
    selectReply choices ≠ some c0.content) := by
  refine ⟨selectReply_getLast choices h, ?_⟩
  intro c0 _ hne hsel
  rw [selectReply_getLast choices h] at hsel
  exact hne (Option.some.inj hsel).symm

theorem selectReply_last_choice_witness :
  selectReply [{ content := "first" }, { content := "second" }] = some "second" ∧
  selectReply [{ content := "first" }, { content := "second" }] ≠ some "first" := by
  have h := selectReply_last_choice
    [{ content := "first" }, { content := "second" }] (by simp)
  refine ⟨?_, ?_⟩
  · simpa using h.1
  · intro hbad
    exact h.2 { content := "first" } rfl (by simp) (by simpa using hbad)

/-- C10: the reply-text selection has no emptiness guard: on a
response with zero choices the length - 1 index falls outside the
list and the error branch of the total indexing is taken, while
any response with at least one choice yields a reply. -/
theorem selectReply_empty_out_of_bounds :
  goIndex [] ((([] : List Choice).length : Int) - 1) = none ∧
  selectReply [] = none ∧
  (∀ choices : List Choice, choices ≠ [] → ∃ s, selectReply choices = some s) := by
  refine ⟨rfl, rfl, ?_⟩
  intro choices h
  exact ⟨(choices.getLast h).content, selectReply_getLast choices h⟩

theorem selectReply_empty_out_of_bounds_witness :
  (∃ s, selectReply [{ content := "only" }] = some s) ∧ selectReply [] = none :=
  ⟨selectReply_empty_out_of_bounds.2.2 [{ content := "only" }] (by simp),
   selectReply_empty_out_of_bounds.2.1⟩

/-- C9: a room-invite state event addressed to the bot's own
identity triggers exactly one join call whatever its outcome
(accept-all, no retry), and when the join call fails the handler
leaves the joined-room set unchanged and emits exactly one error
log line carrying the room and the inviter; the handler returns
normally, so processing of later events continues. -/
theorem invite_join_failure (botID : String) (joined : List String) (evt : InviteEvent)
    (joinOutcome : Except Unit Unit)
    (hkey : evt.stateKey = botID) (hmem : evt.membership = "invite") :
  (inviteHandler botID joined evt joinOutcome).joinAttempts = 1 ∧
  (joinOutcome = Except.error () →
    inviteHandler botID joined evt joinOutcome =
      { joined := joined
        logs := [{ level := LogLevel.error, roomID := evt.roomID
                   inviter := evt.sender, msg := "Failed to join room after invite" }]
        joinAttempts := 1 }) := by
  constructor
  · cases joinOutcome <;> simp [inviteHandler, hkey, hmem]
  · intro hj
    subst hj
    simp [inviteHandler, hkey, hmem]

theorem invite_join_failure_witness :
  inviteHandler "bot" ["r0"]
      { stateKey := "bot", membership := "invite", roomID := "r1", sender := "alice" }
      (Except.error ()) =
    { joined := ["r0"]
      logs := [{ level := LogLevel.error, roomID := "r1"
                 inviter := "alice", msg := "Failed to join room after invite" }]
      joinAttempts := 1 } :=
  (invite_join_failure "bot" ["r0"]
    { stateKey := "bot", membership := "invite", roomID := "r1", sender := "alice" }
    (Except.error ()) rfl rfl).2 rfl

theorem get?_append_new (cs : List Conversation) (d : Conversation) :
  (cs ++ [d]).length = cs.length + 1 ∧
  (∀ j, j < cs.length → (cs ++ [d]).get? j = cs.get? j) ∧
  (cs ++ [d]).get? cs.length = some d := by
  refine ⟨by simp, ?_, ?_⟩
  · intro j hj
    exact List.get?_append hj
  · exact List.get?_concat_length cs d

/-- C1 claim as stated is false: the user turn is appended to the
resolved conversation before the completion call is made, so a
completion failure leaves the conversation one turn longer than
before the event arrived. Concretely, a store holding one
single-turn conversation receives a reply event whose completion
fails, and afterwards the conversation holds two turns. -/
theorem respond_completion_failure_claim_cex :
  ((respondHandler "bot"
      [[{ eventID := "e1", parentID := "", role := Role.user, content := "hi" }]]
      { sender := "alice", id := "e2", parentID := "e1", body := "question", roomID := "room" }
      (Except.error ()) (Except.ok "e9")).convs.map List.length) = [2] ∧
  (([[{ eventID := "e1", parentID := "", role := Role.user, content := "hi" }]] :
      List Conversation).map List.length) = [1] := by
  constructor <;> rfl

/-- C1 amended: if the completion call fails, no send is
attempted and no outbound message or assistant turn is produced,
but the mutation made before the completion call remains: the
resolved conversation has gained exactly the user turn, or, on
the fallback path, exactly one new single-turn conversation has
been registered. -/
theorem respond_completion_failure_amended (botID : String) (cs : List Conversation)
    (evt : InboundEvent) (send : Except Unit String) (hs : evt.sender ≠ botID) :
  (respondHandler botID cs evt (Except.error ()) send).sendAttempted = false ∧
  (respondHandler botID cs evt (Except.error ()) send).sent = [] ∧
  ((∃ i, evt.parentID ≠ "" ∧ findByEventID cs evt.parentID = some i ∧
     (respondHandler botID cs evt (Except.error ()) send).convs =
       updateAt cs i (fun c => c ++
         [{ eventID := evt.id, parentID := evt.parentID
            role := Role.user, content := evt.body }]))
   ∨ ((evt.parentID = "" ∨ findByEventID cs evt.parentID = none) ∧
      (respondHandler botID cs evt (Except.error ()) send).convs =
        cs ++ [newConversation evt.body])) := by
  by_cases hp : evt.parentID = ""
  · have hfound : (if evt.parentID ≠ "" then findByEventID cs evt.parentID else none) = none := by
      simp [hp]
    refine ⟨?_, ?_, Or.inr ⟨Or.inl hp, ?_⟩⟩ <;> simp [respondHandler, hs, hfound]
  · cases hfind : findByEventID cs evt.parentID with
    | none =>
      have hfound : (if evt.parentID ≠ "" then findByEventID cs evt.parentID else none) = none := by
        simp [hp, hfind]
      refine ⟨?_, ?_, Or.inr ⟨Or.inr rfl, ?_⟩⟩ <;> simp [respondHandler, hs, hfound]
    | some i =>
      have hfound : (if evt.parentID ≠ "" then findByEventID cs evt.parentID else none) = some i := by
        simp [hp, hfind]
      refine ⟨?_, ?_, Or.inl ⟨i, hp, rfl, ?_⟩⟩ <;>
        simp [respondHandler, hs, hfound, addMessage]

theorem respond_completion_failure_amended_witness :
  ("alice" : String) ≠ "bot" ∧
  ((respondHandler "bot"
      [[{ eventID := "e1", parentID := "", role := Role.user, content := "hi" }]]
      { sender := "alice", id := "e2", parentID := "e1", body := "question", roomID := "room" }
      (Except.error ()) (Except.ok "e9")).sent = []) :=
  ⟨by decide,
   (respond_completion_failure_amended "bot"
     [[{ eventID := "e1", parentID := "", role := Role.user, content := "hi" }]]
     { sender := "alice", id := "e2", parentID := "e1", body := "question", roomID := "room" }
     (Except.ok "e9") (by decide)).2.1⟩

/-- C7: if the completion succeeds but the outbound send fails,
the handler sends nothing and records no assistant turn: the
resolved conversation has gained exactly the user turn (or the
fallback path has registered exactly one new single-turn
conversation), so the turn count grew by at most one, never two,
and the generated reply appears nowhere in the state. -/
theorem respond_send_failure (botID : String) (cs : List Conversation)
    (evt : InboundEvent) (reply : String) (hs : evt.sender ≠ botID) :
  (respondHandler botID cs evt (Except.ok reply) (Except.error ())).sent = [] ∧
  (respondHandler botID cs evt (Except.ok reply) (Except.error ())).sendAttempted = true ∧
  ((∃ i, evt.parentID ≠ "" ∧ findByEventID cs evt.parentID = some i ∧
     (respondHandler botID cs evt (Except.ok reply) (Except.error ())).convs =
       updateAt cs i (fun c => c ++
         [{ eventID := evt.id, parentID := evt.parentID
            role := Role.user, content := evt.body }]))
   ∨ ((evt.parentID = "" ∨ findByEventID cs evt.parentID = none) ∧
      (respondHandler botID cs evt (Except.ok reply) (Except.error ())).convs =
        cs ++ [newConversation evt.body])) := by
  by_cases hp : evt.parentID = ""
  · have hfound : (if evt.parentID ≠ "" then findByEventID cs evt.parentID else none) = none := by
      simp [hp]
    refine ⟨?_, ?_, Or.inr ⟨Or.inl hp, ?_⟩⟩ <;> simp [respondHandler, hs, hfound]
  · cases hfind : findByEventID cs evt.parentID with
    | none =>
      have hfound : (if evt.parentID ≠ "" then findByEventID cs evt.parentID else none) = none := by
        simp [hp, hfind]
      refine ⟨?_, ?_, Or.inr ⟨Or.inr rfl, ?_⟩⟩ <;> simp [respondHandler, hs, hfound]
    | some i =>
      have hfound : (if evt.parentID ≠ "" then findByEventID cs evt.parentID else none) = some i := by
        simp [hp, hfind]
      refine ⟨?_, ?_, Or.inl ⟨i, hp, rfl, ?_⟩⟩ <;>
        simp [respondHandler, hs, hfound, addMessage]

theorem respond_send_failure_witness :
  ("alice" : String) ≠ "bot" ∧
  ((respondHandler "bot"
      [[{ eventID := "e1", parentID := "", role := Role.user, content := "hi" }]]
      { sender := "alice", id := "e2", parentID := "e1", body := "question", roomID := "room" }
      (Except.ok "generated reply") (Except.error ())).sent = []) :=
  ⟨by decide,
   (respond_send_failure "bot"
     [[{ eventID := "e1", parentID := "", role := Role.user, content := "hi" }]]
     { sender := "alice", id := "e2", parentID := "e1", body := "question", roomID := "room" }
     "generated reply" (by decide)).1⟩

/-- C5: when the completion and the send both succeed, exactly
one outbound message is produced, marked as a reply to the
inbound event, and the resolved conversation gains exactly two
turns in order — the user turn then the assistant turn — the
assistant turn carrying the sent event's id and the inbound
event's id as parent (on the fallback path the newly registered
conversation likewise ends with seed turn then assistant turn). -/
theorem respond_success_turn_pairing (botID : String) (cs : List Conversation)
    (evt : InboundEvent) (reply respID : String) (hs : evt.sender ≠ botID) :
  (respondHandler botID cs evt (Except.ok reply) (Except.ok respID)).sent =
    [{ roomID := evt.roomID, body := reply, inReplyTo := evt.id, eventID := respID }] ∧
  ((∃ i, evt.parentID ≠ "" ∧ findByEventID cs evt.parentID = some i ∧
     (respondHandler botID cs evt (Except.ok reply) (Except.ok respID)).convs =
       updateAt cs i (fun c => c ++
         [{ eventID := evt.id, parentID := evt.parentID
            role := Role.user, content := evt.body },
          { eventID := respID, parentID := evt.id
            role := Role.assistant, content := reply }]))
   ∨ ((evt.parentID = "" ∨ findByEventID cs evt.parentID = none) ∧
      (respondHandler botID cs evt (Except.ok reply) (Except.ok respID)).convs =
        cs ++ [[{ eventID := "", parentID := "", role := Role.user, content := evt.body },
                { eventID := respID, parentID := evt.id
                  role := Role.assistant, content := reply }]])) := by
  by_cases hp : evt.parentID = ""
  · have hfound : (if evt.parentID ≠ "" then findByEventID cs evt.parentID else none) = none := by
      simp [hp]
    refine ⟨?_, Or.inr ⟨Or.inl hp, ?_⟩⟩
    · simp [respondHandler, hs, hfound]
    · simp [respondHandler, hs, hfound, updateAt_append_singleton, addMessage, newConversation]
  · cases hfind : findByEventID cs evt.parentID with
    | none =>
      have hfound : (if evt.parentID ≠ "" then findByEventID cs evt.parentID else none) = none := by
        simp [hp, hfind]
      refine ⟨?_, Or.inr ⟨Or.inr rfl, ?_⟩⟩
      · simp [respondHandler, hs, hfound]
      · simp [respondHandler, hs, hfound, updateAt_append_singleton, addMessage, newConversation]
    | some i =>
      have hfound : (if evt.parentID ≠ "" then findByEventID cs evt.parentID else none) = some i := by
        simp [hp, hfind]
      refine ⟨?_, Or.inl ⟨i, hp, rfl, ?_⟩⟩
      · simp [respondHandler, hs, hfound]
      · simp [respondHandler, hs, hfound, updateAt_updateAt, addMessage]

theorem respond_success_turn_pairing_witness :
  ("alice" : String) ≠ "bot" ∧
  ((respondHandler "bot"
      [[{ eventID := "e1", parentID := "", role := Role.user, content := "hi" }]]
      { sender := "alice", id := "e2", parentID := "e1", body := "question", roomID := "room" }
      (Except.ok "the reply") (Except.ok "e9")).sent =
    [{ roomID := "room", body := "the reply", inReplyTo := "e2", eventID := "e9" }]) :=
  ⟨by decide,
   (respond_success_turn_pairing "bot"
     [[{ eventID := "e1", parentID := "", role := Role.user, content := "hi" }]]
     { sender := "alice", id := "e2", parentID := "e1", body := "question", roomID := "room" }
     "the reply" "e9" (by decide)).1⟩

/-- C3 claim as stated is false: the creation call receives only
the event body, so the seed turn of a newly created conversation
carries a blank id, not the triggering inbound event's id.
Concretely, an event with id e1 and no parent creates a
conversation whose single turn has event id the empty string. -/
theorem respond_new_conversation_claim_cex :
  (respondHandler "bot" []
      { sender := "alice", id := "e1", parentID := "", body := "hello", roomID := "room" }
      (Except.error ()) (Except.ok "e9")).convs =
    [[{ eventID := "", parentID := "", role := Role.user, content := "hello" }]] ∧
  ("" : String) ≠ "e1" := by
  constructor
  · rfl
  · decide

/-- C3 amended: for an inbound event whose parentId is empty or
does not resolve, a new conversation is created and registered
(at the end of the store, the earlier conversations untouched)
containing exactly one user turn holding the event body — but its
turn id and parent id are left blank, not set to the inbound
event's id; any further turn it acquires during the same handling
cycle is the assistant reply. -/
theorem respond_new_conversation_amended (botID : String) (cs : List Conversation)
    (evt : InboundEvent) (comp send : Except Unit String) (hs : evt.sender ≠ botID)
    (hp : evt.parentID = "" ∨ findByEventID cs evt.parentID = none) :
  (respondHandler botID cs evt comp send).convs.length = cs.length + 1 ∧
  (∀ j, j < cs.length →
    (respondHandler botID cs evt comp send).convs.get? j = cs.get? j) ∧
  (∃ rest, (respondHandler botID cs evt comp send).convs.get? cs.length =
      some ({ eventID := "", parentID := "", role := Role.user, content := evt.body } :: rest) ∧
    ∀ m ∈ rest, m.role = Role.assistant) := by
  have hfound : (if evt.parentID ≠ "" then findByEventID cs evt.parentID else none) = none := by
    rcases hp with hp | hp
    · simp [hp]
    · by_cases hpe : evt.parentID = "" <;> simp [hpe, hp]
  have key : ∃ rest, (respondHandler botID cs evt comp send).convs =
      cs ++ [{ eventID := "", parentID := "", role := Role.user, content := evt.body } :: rest] ∧
      ∀ m ∈ rest, m.role = Role.assistant := by
    cases comp with
    | error e =>
      exact ⟨[], by simp [respondHandler, hs, hfound, newConversation], by simp⟩
    | ok reply =>
      cases send with
      | error e =>
        exact ⟨[], by simp [respondHandler, hs, hfound, newConversation], by simp⟩
      | ok respID =>
        refine ⟨[{ eventID := respID, parentID := evt.id
                   role := Role.assistant, content := reply }], ?_, by simp⟩
        simp [respondHandler, hs, hfound, updateAt_append_singleton,
          addMessage, newConversation]
  obtain ⟨rest, hconvs, hrest⟩ := key
  rw [hconvs]
  obtain ⟨hlen, hbefore, hlast⟩ := get?_append_new cs
    ({ eventID := "", parentID := "", role := Role.user, content := evt.body } :: rest)
  exact ⟨hlen, hbefore, rest, hlast, hrest⟩

theorem respond_new_conversation_amended_witness :
  ("alice" : String) ≠ "bot" ∧
  ((respondHandler "bot" []
      { sender := "alice", id := "e1", parentID := "", body := "hello", roomID := "room" }
      (Except.error ()) (Except.ok "e9")).convs.length = 0 + 1) :=
  ⟨by decide,
   (respond_new_conversation_amended "bot" []
     { sender := "alice", id := "e1", parentID := "", body := "hello", roomID := "room" }
     (Except.error ()) (Except.ok "e9") (by decide) (Or.inl rfl)).1⟩

/-- C2: for an inbound event from another sender whose non-empty
parentId resolves to the conversation at index i (and whose own
event id is fresh for the store), handling appends the user turn
built from the event — id, parentId, user role, body — to that
conversation, and looking the new turn's id up afterwards returns
the same conversation slot. -/
theorem respond_thread_resolution (botID : String) (cs : List Conversation)
    (evt : InboundEvent) (comp send : Except Unit String) (i : Nat)
    (hs : evt.sender ≠ botID)
    (hp : evt.parentID ≠ "")
    (hfind : findByEventID cs evt.parentID = some i)
    (hfresh : ∀ c ∈ cs, ∀ m ∈ c, m.eventID ≠ evt.id) :
  ∃ c0 rest,
    cs.get? i = some c0 ∧
    (respondHandler botID cs evt comp send).convs.get? i =
      some (c0 ++ { eventID := evt.id, parentID := evt.parentID
                    role := Role.user, content := evt.body } :: rest) ∧
    findByEventID (respondHandler botID cs evt comp send).convs evt.id = some i := by
  have hfound : (if evt.parentID ≠ "" then findByEventID cs evt.parentID else none) = some i := by
    simp [hp, hfind]
  obtain ⟨c0, hc0, _⟩ := findByEventID_spec hfind
  have key : ∃ rest, (respondHandler botID cs evt comp send).convs =
      updateAt cs i (fun c =>
        c ++ { eventID := evt.id, parentID := evt.parentID
               role := Role.user, content := evt.body } :: rest) := by
    cases comp with
    | error e => exact ⟨[], by simp [respondHandler, hs, hfound, addMessage]⟩
    | ok reply =>
      cases send with
      | error e => exact ⟨[], by simp [respondHandler, hs, hfound, addMessage]⟩
      | ok respID =>
        exact ⟨[{ eventID := respID, parentID := evt.id
                  role := Role.assistant, content := reply }],
          by simp [respondHandler, hs, hfound, updateAt_updateAt, addMessage]⟩
  obtain ⟨rest, hconvs⟩ := key
  refine ⟨c0, rest, hc0, ?_, ?_⟩
  · rw [hconvs, updateAt_get?_self, hc0]
    rfl
  · rw [hconvs]
    apply findByEventID_eq_some_of (c :=
      c0 ++ { eventID := evt.id, parentID := evt.parentID
              role := Role.user, content := evt.body } :: rest)
    · rw [updateAt_get?_self, hc0]
      rfl
    · exact hasEventID_true_of_mem
        (m := { eventID := evt.id, parentID := evt.parentID
                role := Role.user, content := evt.body }) (by simp) rfl
    · intro j hj c' hc'
      rw [updateAt_get?_ne cs i j _ (Nat.ne_of_lt hj)] at hc'
      exact hasEventID_false_of c' evt.id
        (fun m hm => hfresh c' (List.get?_mem hc') m hm)

theorem respond_thread_resolution_witness :
  ∃ c0 rest,
    ([[{ eventID := "e1", parentID := "", role := Role.user, content := "hi" }]] :
      List Conversation).get? 0 = some c0 ∧
    (respondHandler "bot"
        [[{ eventID := "e1", parentID := "", role := Role.user, content := "hi" }]]
        { sender := "alice", id := "e2", parentID := "e1", body := "question", roomID := "room" }
        (Except.error ()) (Except.ok "e9")).convs.get? 0 =
      some (c0 ++ { eventID := "e2", parentID := "e1"
                    role := Role.user, content := "question" } :: rest) ∧
    findByEventID (respondHandler "bot"
        [[{ eventID := "e1", parentID := "", role := Role.user, content := "hi" }]]
        { sender := "alice", id := "e2", parentID := "e1", body := "question", roomID := "room" }
        (Except.error ()) (Except.ok "e9")).convs "e2" = some 0 :=
  respond_thread_resolution "bot"
    [[{ eventID := "e1", parentID := "", role := Role.user, content := "hi" }]]
    { sender := "alice", id := "e2", parentID := "e1", body := "question", roomID := "room" }
    (Except.error ()) (Except.ok "e9") 0 (by decide) (by decide) (by decide) (by decide)

/-- An id that occurs in no turn of any held conversation. -/
def FreshID (cs : List Conversation) (eid : String) : Prop :=
  ∀ c ∈ cs, ∀ m ∈ c, m.eventID ≠ eid

/-- No two distinct conversation slots of the store hold a turn
with the same non-blank id. -/
def NoSharedIDs (cs : List Conversation) : Prop :=
  ∀ i j ci cj, i ≠ j → cs.get? i = some ci → cs.get? j = some cj →
    ∀ eid, eid ≠ "" → hasEventID ci eid = true → hasEventID cj eid = false

theorem get?_append_singleton_cases {cs : List Conversation} {d c : Conversation} {k : Nat}
    (h : (cs ++ [d]).get? k = some c) :
    cs.get? k = some c ∨ (k = cs.length ∧ c = d) := by
  by_cases hk : k < cs.length
  · left
    rw [← List.get?_append hk]
    exact h
  · right
    have hlt : k < (cs ++ [d]).length := List.get?_eq_some.mp h |>.choose
    have hkeq : k = cs.length := by
      simp only [List.length_append, List.length_singleton] at hlt
      omega
    subst hkeq
    rw [List.get?_concat_length] at h
    exact ⟨rfl, (Option.some.inj h).symm⟩

theorem noSharedIDs_updateAt (cs : List Conversation) (idx : Nat) (ms : List Message)
    (hinv : NoSharedIDs cs)
    (hms : ∀ m ∈ ms, FreshID cs m.eventID) :
  NoSharedIDs (updateAt cs idx (fun c => c ++ ms)) := by
  intro i j ci cj hij hci hcj eid hne hhi
  by_cases hi : i = idx
  · subst hi
    have hj : j ≠ i := fun h => hij h.symm
    rw [updateAt_get?_ne cs i j _ hj] at hcj
    rw [updateAt_get?_self] at hci
    obtain ⟨ci0, hci0, hcieq⟩ : ∃ ci0, cs.get? i = some ci0 ∧ ci = ci0 ++ ms := by
      cases hcs : cs.get? i with
      | none => rw [hcs] at hci; exact Option.noConfusion hci
      | some c0 => rw [hcs] at hci; exact ⟨c0, rfl, (Option.some.inj hci).symm⟩
    subst hcieq
    rw [hasEventID_append] at hhi
    rcases Bool.or_eq_true_iff.mp hhi with hl | hr
    · exact hinv i j ci0 cj hij hci0 hcj eid hne hl
    · obtain ⟨m, hm, hmeq⟩ := mem_of_hasEventID hr
      have hfr : FreshID cs eid := hmeq ▸ hms m hm
      exact hasEventID_false_of cj eid (hfr cj (List.get?_mem hcj))
  · rw [updateAt_get?_ne cs idx i _ hi] at hci
    by_cases hj : j = idx
    · subst hj
      rw [updateAt_get?_self] at hcj
      obtain ⟨cj0, hcj0, hcjeq⟩ : ∃ cj0, cs.get? j = some cj0 ∧ cj = cj0 ++ ms := by
        cases hcs : cs.get? j with
        | none => rw [hcs] at hcj; exact Option.noConfusion hcj
        | some c0 => rw [hcs] at hcj; exact ⟨c0, rfl, (Option.some.inj hcj).symm⟩
      subst hcjeq
      rw [hasEventID_append]
      have h1 : hasEventID cj0 eid = false := hinv i j ci cj0 hij hci hcj0 eid hne hhi
      have h2 : hasEventID ms eid = false := by
        apply hasEventID_false_of
        intro m hm hmeq
        obtain ⟨m', hm', hm'eq⟩ := mem_of_hasEventID hhi
        exact (hmeq ▸ hms m hm) ci (List.get?_mem hci) m' hm' hm'eq
      rw [h1, h2]
      rfl
    · rw [updateAt_get?_ne cs idx j _ hj] at hcj
      exact hinv i j ci cj hij hci hcj eid hne hhi

theorem noSharedIDs_append (cs : List Conversation) (d : Conversation)
    (hinv : NoSharedIDs cs)
    (hd : ∀ m ∈ d, m.eventID = "" ∨ FreshID cs m.eventID) :
  NoSharedIDs (cs ++ [d]) := by
  intro i j ci cj hij hci hcj eid hne hhi
  rcases get?_append_singleton_cases hci with hci2 | ⟨hieq, hcieq⟩
  · rcases get?_append_singleton_cases hcj with hcj2 | ⟨hjeq, hcjeq⟩
    · exact hinv i j ci cj hij hci2 hcj2 eid hne hhi
    · apply hasEventID_false_of
      intro m hm hmeq
      have hmd : m ∈ d := hcjeq ▸ hm
      rcases hd m hmd with hblank | hfr
      · exact hne (hmeq ▸ hblank)
      · obtain ⟨m', hm', hm'eq⟩ := mem_of_hasEventID hhi
        exact (hmeq ▸ hfr) ci (List.get?_mem hci2) m' hm' hm'eq
  · rcases get?_append_singleton_cases hcj with hcj2 | ⟨hjeq, hcjeq⟩
    · obtain ⟨m, hm, hmeq⟩ := mem_of_hasEventID hhi
      have hmd : m ∈ d := hcieq ▸ hm
      rcases hd m hmd with hblank | hfr
      · exact absurd (hmeq ▸ hblank) hne
      · exact hasEventID_false_of cj eid ((hmeq ▸ hfr) cj (List.get?_mem hcj2))
    · exact absurd (hieq.trans hjeq.symm) hij

/-- C8 claim as stated is false: the creation path seeds every
new conversation with a blank turn id, so after two events with
no parent the store holds two distinct conversations that both
contain a turn with the same (blank) id. -/
theorem no_shared_ids_claim_cex :
  (respondHandler "bot"
      (respondHandler "bot" []
        { sender := "alice", id := "e1", parentID := "", body := "first", roomID := "room" }
        (Except.error ()) (Except.ok "x")).convs
      { sender := "carol", id := "e2", parentID := "", body := "second", roomID := "room" }
      (Except.error ()) (Except.ok "x")).convs =
    [[{ eventID := "", parentID := "", role := Role.user, content := "first" }],
     [{ eventID := "", parentID := "", role := Role.user, content := "second" }]] ∧
  hasEventID [{ eventID := "", parentID := "", role := Role.user, content := "first" }] "" = true ∧
  hasEventID [{ eventID := "", parentID := "", role := Role.user, content := "second" }] "" = true ∧
  ([{ eventID := "", parentID := "", role := Role.user, content := "first" }] : Conversation) ≠
    [{ eventID := "", parentID := "", role := Role.user, content := "second" }] := by
  refine ⟨rfl, rfl, rfl, by decide⟩

/-- C8 amended: no two distinct conversation slots ever hold a
turn with the same non-blank id, and every handling step — append
to the resolved conversation or register a new conversation —
preserves this, provided the inbound event id and any sent event
id are fresh for the store (blank seed ids are exempt: the
creation path does duplicate those). -/
theorem respond_preserves_no_shared_ids (botID : String) (cs : List Conversation)
    (evt : InboundEvent) (comp send : Except Unit String)
    (hinv : NoSharedIDs cs)
    (hfreshEvt : FreshID cs evt.id)
    (hfreshSend : ∀ respID, send = Except.ok respID → FreshID cs respID) :
  NoSharedIDs (respondHandler botID cs evt comp send).convs := by
  by_cases hs : evt.sender = botID
  · have hconvs : (respondHandler botID cs evt comp send).convs = cs := by
      simp [respondHandler, hs]
    rw [hconvs]
    exact hinv
  · have hs' : evt.sender ≠ botID := hs
    have hseed : ∀ m ∈ newConversation evt.body, m.eventID = "" ∨ FreshID cs m.eventID := by
      intro m hm
      left
      simp [newConversation] at hm
      rw [hm]
    rcases hfoundCases :
        (if evt.parentID ≠ "" then findByEventID cs evt.parentID else none) with _ | i
    · cases comp with
      | error e =>
        have hconvs : (respondHandler botID cs evt (Except.error e) send).convs =
            cs ++ [newConversation evt.body] := by
          cases send <;> simp [respondHandler, hs', hfoundCases]
        rw [hconvs]
        exact noSharedIDs_append cs _ hinv hseed
      | ok reply =>
        cases send with
        | error e =>
          have hconvs : (respondHandler botID cs evt (Except.ok reply) (Except.error e)).convs =
              cs ++ [newConversation evt.body] := by
            simp [respondHandler, hs', hfoundCases]
          rw [hconvs]
          exact noSharedIDs_append cs _ hinv hseed
        | ok respID =>
          have hconvs : (respondHandler botID cs evt (Except.ok reply) (Except.ok respID)).convs =
              cs ++ [newConversation evt.body ++
                [{ eventID := respID, parentID := evt.id
                   role := Role.assistant, content := reply }]] := by
            simp [respondHandler, hs', hfoundCases, updateAt_append_singleton, addMessage]
          rw [hconvs]
          apply noSharedIDs_append cs _ hinv
          intro m hm
          rcases List.mem_append.mp hm with hm | hm
          · exact hseed m hm
          · right
            simp at hm
            rw [hm]
            exact hfreshSend respID rfl
    · cases comp with
      | error e =>
        have hconvs : (respondHandler botID cs evt (Except.error e) send).convs =
            updateAt cs i (fun c => c ++
              [{ eventID := evt.id, parentID := evt.parentID
                 role := Role.user, content := evt.body }]) := by
          cases send <;> simp [respondHandler, hs', hfoundCases, addMessage]
        rw [hconvs]
        apply noSharedIDs_updateAt cs i _ hinv
        intro m hm
        simp at hm
        rw [hm]
        exact hfreshEvt
      | ok reply =>
        cases send with
        | error e =>
          have hconvs : (respondHandler botID cs evt (Except.ok reply) (Except.error e)).convs =
              updateAt cs i (fun c => c ++
                [{ eventID := evt.id, parentID := evt.parentID
                   role := Role.user, content := evt.body }]) := by
            simp [respondHandler, hs', hfoundCases, addMessage]
          rw [hconvs]
          apply noSharedIDs_updateAt cs i _ hinv
          intro m hm
          simp at hm
          rw [hm]
          exact hfreshEvt
        | ok respID =>
          have hconvs : (respondHandler botID cs evt (Except.ok reply) (Except.ok respID)).convs =
              updateAt cs i (fun c => c ++
                [{ eventID := evt.id, parentID := evt.parentID
                   role := Role.user, content := evt.body },
                 { eventID := respID, parentID := evt.id
                   role := Role.assistant, content := reply }]) := by
            simp [respondHandler, hs', hfoundCases, updateAt_updateAt, addMessage]
          rw [hconvs]
          apply noSharedIDs_updateAt cs i _ hinv
          intro m hm
          rcases List.mem_cons.mp hm with hm | hm
          · rw [hm]
            exact hfreshEvt
          · simp at hm
            rw [hm]
            exact hfreshSend respID rfl

theorem respond_preserves_no_shared_ids_witness :
  NoSharedIDs (respondHandler "bot" []
    { sender := "alice", id := "e1", parentID := "", body := "hello", roomID := "room" }
    (Except.error ()) (Except.error ())).convs :=
  respond_preserves_no_shared_ids "bot" []
    { sender := "alice", id := "e1", parentID := "", body := "hello", roomID := "room" }
    (Except.error ()) (Except.error ())
    (fun i j ci cj hij hci => absurd hci (by simp))
    (fun c hc => absurd hc (List.not_mem_nil c))
    (fun r hr => Except.noConfusion hr)

end MatrixBots
